import Mathlib

/-!
Shallow embedding of the packer-provisioner-deno plugin (Go).

The repository has two revisions of the provisioner:
* `src/main.go` (plus `src/install_curl.go`): the named revision; no local
  bundling (it is a TODO comment), scripts are uploaded as-is.
* `src/unnamed/part_003`: a later work-in-progress revision with a `NoBundle`
  config field and an unconditional local bundling loop at the top of
  `Provision`, plus a `TargetDenoVersion` passed to the curl installer.

Pure data and control flow are translated directly; the impure collaborators
(the local filesystem, the Packer communicator, the temp-dir allocator and the
external `deno bundle` subprocess) are modelled as explicit oracles passed in,
and the remote side effects a run performs (commands issued, files uploaded)
are returned as an explicit ordered event trace.

Path strings are manipulated through `List Char` so that every definition is
kernel-computable; the semantics follow Go's `path/filepath` on a Unix host
(the separator is `'/'`), which is how the plugin runs.
-/

namespace PackerDeno

/-- The possible results of `os.Stat` on a local path, at the granularity the
provisioner inspects: `s.Mode().IsRegular()`, `s.Mode().IsDir()`, anything
else (named pipe, socket, device, ...), or a stat error (missing path). -/
inductive FileType
  | regular
  | directory
  | other
  | missing
deriving DecidableEq, Repr

/-- Local filesystem oracle: what `os.Stat` reports for a path, and the byte
content `os.Open`/read streams for a regular file. -/
structure Fs where
  typeOf : String → FileType
  content : String → List Nat

/-- Split a character list on `'/'` (like `strings.Split` on `"/"`):
always returns at least one (possibly empty) component. -/
def splitSlash : List Char → List (List Char)
  | [] => [[]]
  | c :: rest =>
    match splitSlash rest with
    | [] => [[]]
    | h :: t => if c = '/' then [] :: h :: t else (c :: h) :: t

/-- Join components with `'/'` separators (inverse of `splitSlash`). -/
def joinSlash : List (List Char) → List Char
  | [] => []
  | [x] => x
  | x :: y :: xs => x ++ '/' :: joinSlash (y :: xs)

/-- `filepath.IsAbs` on a Unix host: the path begins with a slash. -/
def filepathIsAbs (p : String) : Bool :=
  match p.data with
  | '/' :: _ => true
  | _ => false

/-- Core of `filepath.Clean` on a Unix host: drop empty and `.` components,
resolve `..` against preceding components (absolute paths drop leading `..`),
keep rootedness, and return `.` for an empty relative result. -/
def cleanChars (cs : List Char) : List Char :=
  if cs = [] then ['.']
  else
    let rooted : Bool := match cs with | '/' :: _ => true | _ => false
    let comps := (splitSlash cs).filter (fun c => c ≠ [] && c ≠ ['.'])
    let stack := comps.foldl (fun acc c =>
      if c = ['.', '.'] then
        match acc with
        | [] => if rooted then [] else [c]
        | a :: rest => if a = ['.', '.'] then c :: a :: rest else rest
      else c :: acc) []
    let body := joinSlash stack.reverse
    if rooted then '/' :: body
    else if body = [] then ['.'] else body

/-- `filepath.Clean` on a Unix host. -/
def filepathClean (p : String) : String :=
  String.mk (cleanChars p.data)

/-- `filepath.Join` restricted to two elements, as the source uses it:
join the non-empty elements with a slash and `Clean` the result. -/
def filepathJoin (a b : String) : String :=
  if a.data = [] && b.data = [] then ""
  else if a.data = [] then filepathClean b
  else if b.data = [] then filepathClean a
  else String.mk (cleanChars (a.data ++ '/' :: b.data))

/-- `filepath.Base` on a Unix host: `.` for the empty path, otherwise the last
non-empty slash-separated component, or `/` if the path is all slashes. -/
def filepathBase (p : String) : String :=
  if p.data = [] then "."
  else
    match ((splitSlash p.data).filter (fun c => c ≠ [])).getLast? with
    | some b => String.mk b
    | none => "/"

/-- `filepath.Split`'s file component: everything after the final slash
(no trailing-slash trimming, unlike `Base`). Used by `BundlePath`. -/
def filepathSplitFile (p : String) : String :=
  String.mk ((p.data.reverse.takeWhile (fun c => c ≠ '/')).reverse)

/-- `filepath.Dir` on a Unix host: the portion up to and including the final
slash, `Clean`ed; `.` when the path has no slash. -/
def filepathDir (p : String) : String :=
  let dirPart := (p.data.reverse.dropWhile (fun c => c ≠ '/')).reverse
  if dirPart = [] then "." else String.mk (cleanChars dirPart)

/-- `filepath.ToSlash`: on a Unix host the separator is already `/`, so this
is the identity. -/
def filepathToSlash (p : String) : String := p

/-- The `DenoConfig` struct of `src/main.go` (the fields the core reads;
`Username`, `Password` and the interpolation context are never consulted).
Go's nil-vs-empty slice distinction for `Scripts` collapses to `[]`. -/
structure DenoConfig where
  localDenoBin : String := ""
  skipInstall : Bool := false
  skipProvision : Bool := false
  remoteFolder : String := ""
  scripts : List String := []
  denoExecutable : String := ""
deriving DecidableEq, Repr

/-- The `DenoConfig` struct of the `src/unnamed/part_003` revision, which adds
`NoBundle` and `TargetDenoVersion`. -/
structure DenoConfigV2 where
  localDenoBin : String := ""
  skipInstall : Bool := false
  skipProvision : Bool := false
  remoteFolder : String := ""
  noBundle : Bool := false
  scripts : List String := []
  targetDenoVersion : String := ""
  denoExecutable : String := ""
deriving DecidableEq, Repr

/-- The distinct validation errors `Prepare` can append to its
`packer.MultiError`, one constructor per `MultiErrorAppend` site (the
embedded `os.Stat` error text is opaque, so each carries the path instead). -/
inductive PrepareErr
  | badLocalDenoBin (path : String)
  | localBinWithSkipInstall
  | denoExecutableNotAbs
  | noScripts
  | badScript (path : String)
deriving DecidableEq, Repr

/-- The validation-error accumulation of `Prepare`, identical in both
revisions, in source order: local-binary checks, the `denoExecutable`
absoluteness check (against the constant just assigned), the empty-scripts
check, then one `os.Stat` check per configured script. -/
def prepareErrs (fs : Fs) (localDenoBin : String) (skipInstall : Bool)
    (scripts : List String) : List PrepareErr :=
  let errs1 : List PrepareErr :=
    if localDenoBin ≠ "" then
      (if fs.typeOf localDenoBin = .missing then [.badLocalDenoBin localDenoBin] else []) ++
      (if skipInstall then [.localBinWithSkipInstall] else [])
    else []
  let errs2 := errs1 ++
    (if filepathIsAbs "/root/.local/bin/deno" then [] else [.denoExecutableNotAbs])
  let errs3 := errs2 ++ (if scripts.length = 0 then [.noScripts] else [])
  errs3 ++ scripts.filterMap
    (fun path => if fs.typeOf path = .missing then some (.badScript path) else none)

/-- `Provisioner.Prepare` from `src/main.go` after config decoding: apply the
`RemoteFolder` default, force `denoExecutable` to its constant, and
accumulate every validation error. Returns the updated config and the
accumulated error list (Go returns the `MultiError` iff it is non-empty). -/
def prepare (fs : Fs) (c0 : DenoConfig) : DenoConfig × List PrepareErr :=
  ({ c0 with
      remoteFolder := if c0.remoteFolder = "" then "/tmp/packer-deno" else c0.remoteFolder,
      denoExecutable := "/root/.local/bin/deno" },
   prepareErrs fs c0.localDenoBin c0.skipInstall c0.scripts)

/-- The value `Prepare` returns: the `MultiError` when any violation was
accumulated, otherwise success with the resolved config. -/
def prepareResult (fs : Fs) (c0 : DenoConfig) : Except (List PrepareErr) DenoConfig :=
  let r := prepare fs c0
  if r.2 = [] then .ok r.1 else .error r.2

/-- `Prepare` of the `part_003` revision: identical validation logic over the
extended config (`noBundle` and `targetDenoVersion` are not validated). -/
def prepareV2 (fs : Fs) (c0 : DenoConfigV2) : DenoConfigV2 × List PrepareErr :=
  ({ c0 with
      remoteFolder := if c0.remoteFolder = "" then "/tmp/packer-deno" else c0.remoteFolder,
      denoExecutable := "/root/.local/bin/deno" },
   prepareErrs fs c0.localDenoBin c0.skipInstall c0.scripts)

/-- What a remote upload carries: the constant `installCurlScript` text from
`src/install_curl.go` (its bytes are never inspected by the core, so it is a
distinguished token), or the byte content of a local file. -/
inductive UploadSource
  | installCurlScriptText
  | fileBytes (bytes : List Nat)
deriving DecidableEq, Repr

/-- One observable side effect on the remote target, in the order performed:
a `packer.RemoteCmd` issued through the communicator, or a `comm.Upload`. -/
inductive CommEvent
  | runCmd (command : String)
  | upload (dst : String) (src : UploadSource)
deriving DecidableEq, Repr

/-- Communicator oracle. `runResult cmd`: `none` when `RunWithUi` itself
errors, `some code` for a completed command's exit status. `uploadOk dst`:
whether `comm.Upload` to `dst` succeeds. -/
structure Comm where
  runResult : String → Option Nat
  uploadOk : String → Bool

/-- Structured model of the `error` values the run can produce, one
constructor per distinct error site; `wrap ctx e` models
`fmt.Errorf("<ctx>: %s", e)`. Opaque collaborator errors (`os.Stat`,
`os.Open`, `comm.Upload`, `RunWithUi`, `ioutil.TempDir`, `exec` start/wait)
are identified by the path or command involved. -/
inductive RunErr
  | runWithUiErr (msg : String) (command : String)
  | nonZeroExit (msg : String) (command : String) (code : Nat)
  | openErr (src : String)
  | commUploadErr (dst : String)
  | statErr (path : String)
  | isDirectory (path : String)
  | notRegularFile (path : String)
  | tempDirErr
  | bundleStartErr (src : String) (bundle : String)
  | bundleWaitErr (src : String)
  | wrap (context : String) (inner : RunErr)
deriving DecidableEq, Repr

/-- Decidable equality for `Except` results, so concrete runs evaluate under
`decide`. -/
def Except.decEq {e a : Type} [DecidableEq e] [DecidableEq a] :
    DecidableEq (Except e a)
  | .error x, .error y =>
    if h : x = y then .isTrue (by rw [h]) else .isFalse (by intro hc; cases hc; exact h rfl)
  | .error _, .ok _ => .isFalse (by intro hc; cases hc)
  | .ok _, .error _ => .isFalse (by intro hc; cases hc)
  | .ok x, .ok y =>
    if h : x = y then .isTrue (by rw [h]) else .isFalse (by intro hc; cases hc; exact h rfl)

instance {e a : Type} [DecidableEq e] [DecidableEq a] : DecidableEq (Except e a) :=
  Except.decEq

/-- `execRemoteCommand` from `src/main.go`: run the command, block, error if
`RunWithUi` failed or the exit status is non-zero. The issued command is
recorded as the trace. -/
def execRemoteCommand (comm : Comm) (command msg : String) :
    List CommEvent × Except RunErr Unit :=
  ([CommEvent.runCmd command],
    match comm.runResult command with
    | none => .error (.wrap ("error " ++ msg) (.runWithUiErr msg command))
    | some code => if code ≠ 0 then .error (.nonZeroExit msg command code) else .ok ())

/-- A single-quote character, as `createDir` quotes its argument. -/
def squote : String := String.mk [Char.ofNat 39]

/-- The command string `createDir` issues: `mkdir -p '<dir>'`. -/
def mkdirCommand (dir : String) : String := "mkdir -p " ++ squote ++ dir ++ squote

/-- `Provisioner.createDir`: issue `mkdir -p '<dir>'` remotely and propagate
`execRemoteCommand`'s result unchanged. -/
def createDir (comm : Comm) (dir : String) : List CommEvent × Except RunErr Unit :=
  execRemoteCommand comm (mkdirCommand dir) "create dir"

/-- `Provisioner.uploadFile`: `os.Open` the source (fails iff the path is
missing), `comm.Upload` its bytes to `dst` (the `f.Close()` error path is
not modelled as failing). -/
def uploadFile (fs : Fs) (comm : Comm) (dst src : String) :
    List CommEvent × Except RunErr Unit :=
  if fs.typeOf src = .missing then ([], .error (.wrap "error opening" (.openErr src)))
  else
    let ev := CommEvent.upload dst (.fileBytes (fs.content src))
    if comm.uploadOk dst then ([ev], .ok ())
    else ([ev], .error (.wrap ("error uploading " ++ src) (.commUploadErr dst)))

/-- The command string `runDeno` issues: `<denoExecutable> run -A <script>`. -/
def runDenoCommand (denoExe scriptPath : String) : String :=
  denoExe ++ " run -A " ++ scriptPath

/-- `Provisioner.runDeno`: issue the `deno run -A` command for one uploaded
script and propagate `execRemoteCommand`'s result unchanged (the message
passed is the command string itself). -/
def runDeno (comm : Comm) (denoExe scriptPath : String) :
    List CommEvent × Except RunErr Unit :=
  execRemoteCommand comm (runDenoCommand denoExe scriptPath) (runDenoCommand denoExe scriptPath)

/-- Remote path the curl install script is uploaded to. -/
def installScriptRemotePath : String := "/tmp/install_curl.sh"

/-- The bootstrap fetch-and-run command of `curlInstallDeno` in `src/main.go`
(no version parameter in this revision). -/
def curlBootstrapCommand : String :=
  "curl -fsSL https://deno.land/x/install/install.sh | sh"

/-- `Provisioner.curlInstallDeno` from `src/main.go`: upload the constant
install script, run it with `sh`, then fetch and run the public installer. -/
def curlInstallDeno (comm : Comm) : List CommEvent × Except RunErr Unit :=
  let upEv := CommEvent.upload installScriptRemotePath .installCurlScriptText
  if comm.uploadOk installScriptRemotePath then
    let (e1, r1) := execRemoteCommand comm "sh /tmp/install_curl.sh" "curl install script"
    match r1 with
    | .error e => (upEv :: e1, .error e)
    | .ok _ =>
      let (e2, r2) := execRemoteCommand comm curlBootstrapCommand "installer script"
      (upEv :: (e1 ++ e2), r2)
  else
    ([upEv], .error (.wrap "error uploading curl install script"
      (.commUploadErr installScriptRemotePath)))

/-- The command string marking the uploaded binary executable. -/
def chmodCommand (p : String) : String := "chmod +x " ++ p

/-- `Provisioner.localBinInstallDeno`: create the remote parent directory of
`denoExecutable`, upload the local binary to that exact path, then
`chmod +x` it; each failing step aborts with its wrap context. -/
def localBinInstallDeno (fs : Fs) (comm : Comm) (denoExecutable localDenoBin : String) :
    List CommEvent × Except RunErr Unit :=
  let (e1, r1) := createDir comm (filepathDir denoExecutable)
  match r1 with
  | .error err => (e1, .error (.wrap "mkdir for local deno bin on remote machine" err))
  | .ok _ =>
    let (e2, r2) := uploadFile fs comm denoExecutable localDenoBin
    match r2 with
    | .error err => (e1 ++ e2, .error (.wrap "upload local deno bin" err))
    | .ok _ =>
      let (e3, r3) := execRemoteCommand comm (chmodCommand denoExecutable) "set executable bit"
      (e1 ++ e2 ++ e3, r3)

/-- The install block at the top of `Provision` in `src/main.go`: skip, or
curl-install, or local-binary-install, wrapping any failure as
`error installing deno`. -/
def installPhase (fs : Fs) (comm : Comm) (c : DenoConfig) :
    List CommEvent × Except RunErr Unit :=
  if c.skipInstall then ([], .ok ())
  else
    let (e, r) :=
      if c.localDenoBin = "" then curlInstallDeno comm
      else localBinInstallDeno fs comm c.denoExecutable c.localDenoBin
    (e, match r with
        | .error err => .error (.wrap "error installing deno" err)
        | .ok _ => .ok ())

/-- The upload loop of `Provision` (`src/main.go` lines 152-170): stat each
source; upload regular files to
`ToSlash(Join(RemoteFolder, Base(src)))` and append that destination to the
remote-script manifest; a directory or any other non-regular file aborts. -/
def uploadScripts (fs : Fs) (comm : Comm) (remoteFolder : String) :
    List String → List CommEvent × Except RunErr (List String)
  | [] => ([], .ok [])
  | src :: rest =>
    match fs.typeOf src with
    | .missing => ([], .error (.wrap "stat error" (.statErr src)))
    | .regular =>
      let dst := filepathToSlash (filepathJoin remoteFolder (filepathBase src))
      let (e1, r1) := uploadFile fs comm dst src
      match r1 with
      | .error e => (e1, .error (.wrap "error uploading deno script" e))
      | .ok _ =>
        match uploadScripts fs comm remoteFolder rest with
        | (e2, .error e) => (e1 ++ e2, .error e)
        | (e2, .ok dsts) => (e1 ++ e2, .ok (dst :: dsts))
    | .directory => ([], .error (.isDirectory src))
    | .other => ([], .error (.notRegularFile src))

/-- The execution loop of `Provision` (`src/main.go` lines 175-179): run each
manifest entry in order via `runDeno`, aborting on the first failure. -/
def runScripts (comm : Comm) (denoExe : String) :
    List String → List CommEvent × Except RunErr Unit
  | [] => ([], .ok ())
  | script :: rest =>
    let (e1, r1) := runDeno comm denoExe script
    match r1 with
    | .error e => (e1, .error (.wrap "error running deno" e))
    | .ok _ =>
      let (e2, r2) := runScripts comm denoExe rest
      (e1 ++ e2, r2)

/-- `Provisioner.Provision` from `src/main.go`: install (unless skipped),
create the remote folder, upload the scripts, then run them in manifest
order unless `skipProvision` is set. Returns the ordered remote side-effect
trace and the run's result. -/
def provision (fs : Fs) (comm : Comm) (c : DenoConfig) :
    List CommEvent × Except RunErr Unit :=
  let (ei, ri) := installPhase fs comm c
  match ri with
  | .error e => (ei, .error e)
  | .ok _ =>
    let (ed, rd) := createDir comm c.remoteFolder
    match rd with
    | .error e => (ei ++ ed, .error (.wrap "error creating remote directory" e))
    | .ok _ =>
      match uploadScripts fs comm c.remoteFolder c.scripts with
      | (eu, .error e) => (ei ++ ed ++ eu, .error e)
      | (eu, .ok remoteScripts) =>
        if c.skipProvision then (ei ++ ed ++ eu, .ok ())
        else
          let (er, rr) := runScripts comm c.denoExecutable remoteScripts
          (ei ++ ed ++ eu ++ er, rr)

/-- Oracles for the local collaborators of the `part_003` bundling loop:
`tempDir n` is the directory `ioutil.TempDir("", "packer-provisioner-deno")`
yields on its `n`-th call (`none` = error), and the start/wait oracles are
the outcomes of the `exec.Command("deno", "bundle", src, out)` subprocess. -/
structure Sys where
  tempDir : Nat → Option String
  bundleStartOk : String → String → Bool
  bundleWaitOk : String → String → Bool

/-- `BundlePath` from `part_003`: allocate a fresh temp dir and join it with
the source's final path component plus `".bundle.js"`. `n` is the index of
this `TempDir` call within the run. -/
def BundlePath (sys : Sys) (n : Nat) (path : String) : Except RunErr String :=
  match sys.tempDir n with
  | none => .error .tempDirErr
  | some dir => .ok (filepathJoin dir (filepathSplitFile path ++ ".bundle.js"))

/-- One invocation of the external bundler: `deno bundle <src> <out>`. -/
structure BundleCall where
  src : String
  out : String
deriving DecidableEq, Repr

/-- The bundling loop at the top of `Provision` in `part_003` (lines
144-163): for each script in order, stat it, compute a `BundlePath`, start
and wait on `deno bundle src out`, and collect the bundle output paths.
Returns the bundler invocations made and the bundle list (or first error). -/
def bundlePhase (sys : Sys) (fs : Fs) :
    List String → Nat → List BundleCall × Except RunErr (List String)
  | [], _ => ([], .ok [])
  | src :: rest, n =>
    if fs.typeOf src = .missing then ([], .error (.wrap "stat error" (.statErr src)))
    else
      match BundlePath sys n src with
      | .error e => ([], .error e)
      | .ok bundle =>
        if sys.bundleStartOk src bundle then
          if sys.bundleWaitOk src bundle then
            match bundlePhase sys fs rest (n + 1) with
            | (calls, .error e) => (⟨src, bundle⟩ :: calls, .error e)
            | (calls, .ok bundles) => (⟨src, bundle⟩ :: calls, .ok (bundle :: bundles))
          else ([⟨src, bundle⟩], .error (.wrap ("error bundling " ++ src) (.bundleWaitErr src)))
        else ([⟨src, bundle⟩], .error (.bundleStartErr src bundle))

/-- The bootstrap fetch-and-run command of `curlInstallDeno` in `part_003`:
a non-empty `TargetDenoVersion` is passed to the installer with `sh -s`. -/
def curlBootstrapCommandV2 (version : String) : String :=
  if version = "" then "curl -fsSL https://deno.land/x/install/install.sh | sh"
  else "curl -fsSL https://deno.land/x/install/install.sh | sh -s " ++ version

/-- `Provisioner.curlInstallDeno` from `part_003`: as in `src/main.go` but
with the optional version tag in the bootstrap command. -/
def curlInstallDenoV2 (comm : Comm) (targetDenoVersion : String) :
    List CommEvent × Except RunErr Unit :=
  let upEv := CommEvent.upload installScriptRemotePath .installCurlScriptText
  if comm.uploadOk installScriptRemotePath then
    let (e1, r1) := execRemoteCommand comm "sh /tmp/install_curl.sh" "curl install script"
    match r1 with
    | .error e => (upEv :: e1, .error e)
    | .ok _ =>
      let (e2, r2) := execRemoteCommand comm (curlBootstrapCommandV2 targetDenoVersion)
        "installer script"
      (upEv :: (e1 ++ e2), r2)
  else
    ([upEv], .error (.wrap "error uploading curl install script"
      (.commUploadErr installScriptRemotePath)))

/-- The install block of `Provision` in `part_003`. -/
def installPhaseV2 (fs : Fs) (comm : Comm) (c : DenoConfigV2) :
    List CommEvent × Except RunErr Unit :=
  if c.skipInstall then ([], .ok ())
  else
    let (e, r) :=
      if c.localDenoBin = "" then curlInstallDenoV2 comm c.targetDenoVersion
      else localBinInstallDeno fs comm c.denoExecutable c.localDenoBin
    (e, match r with
        | .error err => .error (.wrap "error installing deno" err)
        | .ok _ => .ok ())

/-- `Provisioner.Provision` from `part_003`: bundle every script (the
`NoBundle` flag is never consulted), then install, create the remote folder,
upload the bundles, and run them unless `skipProvision` is set. Returns the
bundler invocations, the remote side-effect trace, and the result. -/
def provisionV2 (sys : Sys) (fs : Fs) (comm : Comm) (c : DenoConfigV2) :
    List BundleCall × List CommEvent × Except RunErr Unit :=
  match bundlePhase sys fs c.scripts 0 with
  | (calls, .error e) => (calls, [], .error e)
  | (calls, .ok bundles) =>
    let (ei, ri) := installPhaseV2 fs comm c
    match ri with
    | .error e => (calls, ei, .error e)
    | .ok _ =>
      let (ed, rd) := createDir comm c.remoteFolder
      match rd with
      | .error e => (calls, ei ++ ed, .error (.wrap "error creating remote directory" e))
      | .ok _ =>
        match uploadScripts fs comm c.remoteFolder bundles with
        | (eu, .error e) => (calls, ei ++ ed ++ eu, .error e)
        | (eu, .ok remoteScripts) =>
          if c.skipProvision then (calls, ei ++ ed ++ eu, .ok ())
          else
            let (er, rr) := runScripts comm c.denoExecutable remoteScripts
            (calls, ei ++ ed ++ eu ++ er, rr)

/-! ### Fixtures: concrete oracles used by witnesses and counterexamples -/

/-- A communicator on which every command exits 0 and every upload succeeds. -/
def commOk : Comm := ⟨fun _ => some 0, fun _ => true⟩

/-- A filesystem on which every path is missing. -/
def fsNone : Fs := ⟨fun _ => FileType.missing, fun _ => []⟩

/-- A filesystem with a few regular files, used by witnesses. -/
def fsReg : Fs :=
  ⟨fun p =>
    if p = "setup.ts" then FileType.regular
    else if p = "deploy.ts" then FileType.regular
    else if p = "/a/b/script.ts" then FileType.regular
    else if p = "/x/script.ts" then FileType.regular
    else if p = "/opt/deno" then FileType.regular
    else FileType.missing,
   fun p => if p = "/a/b/script.ts" then [10, 20] else if p = "/x/script.ts" then [33] else [7]⟩

/-- Decidable test for a `badScript` validation error. -/
def PrepareErr.isBadScript : PrepareErr → Bool
  | .badScript _ => true
  | _ => false

/-- Concrete config for the C4 witness. -/
def cfgC4 : DenoConfig :=
  { localDenoBin := "/opt/deno", skipInstall := true, scripts := ["x.ts"] }

/-- Concrete config for the C6 witness: two missing scripts, one present. -/
def cfgC6 : DenoConfig := { scripts := ["gone1.ts", "setup.ts", "gone2.ts"] }

/-- Concrete communicator for the C7 witness: the chmod step fails with exit
status 2, everything else succeeds. -/
def commChmodFails : Comm :=
  ⟨fun cmd => if cmd = chmodCommand "/root/.local/bin/deno" then some 2 else some 0,
   fun _ => true⟩

/-- One remote script invocation succeeded: `runDeno` reported no error. -/
def denoRunOk (comm : Comm) (exe s : String) : Prop :=
  (runDeno comm exe s).2 = Except.ok ()

instance (comm : Comm) (exe s : String) : Decidable (denoRunOk comm exe s) :=
  inferInstanceAs (Decidable ((runDeno comm exe s).2 = Except.ok ()))

/-- Communicator for the C1 witness: the run command of `b.ts` exits 1, all
other commands exit 0. -/
def commFailB : Comm :=
  ⟨fun cmd =>
    if cmd = runDenoCommand "/root/.local/bin/deno" "/tmp/packer-deno/b.ts" then some 1
    else some 0,
   fun _ => true⟩

/-- Filesystem for the C2 theorems: a named-pipe path, a directory path and a
regular file. -/
def fsPipe : Fs :=
  ⟨fun p =>
    if p = "pipe.ts" then FileType.other
    else if p = "dir.ts" then FileType.directory
    else if p = "b.ts" then FileType.regular
    else FileType.missing,
   fun _ => [0]⟩

/-- Local-system oracle for the C3 theorems: a fixed temp dir and an
always-succeeding bundler. -/
def sysBundle : Sys := ⟨fun _ => some "/tmp/bundling", fun _ _ => true, fun _ _ => true⟩

/-- Config for the C3 counterexample: bundling disabled via `NoBundle`. -/
def cfgNoBundle : DenoConfigV2 :=
  { noBundle := true, skipInstall := true, skipProvision := true,
    remoteFolder := "/opt/w", scripts := ["setup.ts"],
    denoExecutable := "/root/.local/bin/deno" }

/-- First character of a string, used to separate command families. -/
def headChar (s : String) : Option Char := s.data.head?

/-- Config for the C8 witness: two regular scripts, upload-only mode. -/
def cfgSkipProv : DenoConfig :=
  { skipInstall := true, skipProvision := true, remoteFolder := "/opt/work",
    scripts := ["setup.ts", "deploy.ts"], denoExecutable := "/root/.local/bin/deno" }

example : filepathBase "/a/b/script.ts" = "script.ts" := by decide
example : filepathBase "" = "." := by decide
example : filepathBase "///" = "/" := by decide
example : filepathBase "a/b/" = "b" := by decide
example : filepathJoin "/opt/work" "script.ts" = "/opt/work/script.ts" := by decide
example : filepathJoin "/tmp/packer-deno" "x.ts" = "/tmp/packer-deno/x.ts" := by decide
example : filepathDir "/root/.local/bin/deno" = "/root/.local/bin" := by decide
example : filepathDir "deno" = "." := by decide
example : filepathClean "/a//b/./c/../d" = "/a/b/d" := by decide
example : filepathIsAbs "/root/.local/bin/deno" = true := by decide
example : filepathSplitFile "/a/b/script.ts" = "script.ts" := by decide


/-! ### Prepare: validation claims -/

/-- The per-script `os.Stat` loop contributes exactly one `badScript` error
per missing configured path. -/
theorem countP_badScript_filterMap (fs : Fs) (l : List String) :
    (l.filterMap (fun path =>
        if fs.typeOf path = FileType.missing then some (PrepareErr.badScript path) else none)).countP
        PrepareErr.isBadScript
      = l.countP (fun p => fs.typeOf p == FileType.missing) := by
  induction l with
  | nil => rfl
  | cons a t ih =>
    by_cases h : fs.typeOf a = FileType.missing <;>
      simp [List.filterMap_cons, List.countP_cons, h, ih, PrepareErr.isBadScript]
/-- The `denoExecutableNotAbs` error is never accumulated: the checked value
is the constant `/root/.local/bin/deno`, which is absolute. -/
theorem notAbs_not_mem_prepareErrs (fs : Fs) (localDenoBin : String) (skipInstall : Bool)
    (scripts : List String) :
    PrepareErr.denoExecutableNotAbs ∉ prepareErrs fs localDenoBin skipInstall scripts := by
  have habs : filepathIsAbs "/root/.local/bin/deno" = true := by decide
  simp only [prepareErrs, habs, if_true, List.append_nil, List.mem_append, List.mem_filterMap]
  rintro ((h | h) | h)
  · split at h
    · rcases List.mem_append.mp h with h2 | h2 <;> split at h2 <;> simp_all
    · simp at h
  · split at h <;> simp_all
  · obtain ⟨p, hp, hif⟩ := h
    split at hif <;> simp_all

/-- Claim C9: `Prepare` unconditionally sets `denoExecutable` to the constant
`/root/.local/bin/deno` before checking it for absoluteness, so the
`denoExecutableNotAbs` validation error is unreachable in both revisions. -/
theorem prepare_denoExecutable_abs_check_unreachable (fs : Fs) (c : DenoConfig)
    (cv : DenoConfigV2) :
    (prepare fs c).1.denoExecutable = "/root/.local/bin/deno" ∧
    PrepareErr.denoExecutableNotAbs ∉ (prepare fs c).2 ∧
    (prepareV2 fs cv).1.denoExecutable = "/root/.local/bin/deno" ∧
    PrepareErr.denoExecutableNotAbs ∉ (prepareV2 fs cv).2 :=
  ⟨rfl, notAbs_not_mem_prepareErrs fs c.localDenoBin c.skipInstall c.scripts,
   rfl, notAbs_not_mem_prepareErrs fs cv.localDenoBin cv.skipInstall cv.scripts⟩

/-- Witness for C9 at concrete inputs. -/
theorem prepare_denoExecutable_abs_check_unreachable_witness :
    (prepare fsNone cfgC6).1.denoExecutable = "/root/.local/bin/deno" ∧
    PrepareErr.denoExecutableNotAbs ∉ (prepare fsNone cfgC6).2 ∧
    (prepareV2 fsNone cfgNoBundle).1.denoExecutable = "/root/.local/bin/deno" ∧
    PrepareErr.denoExecutableNotAbs ∉ (prepareV2 fsNone cfgNoBundle).2 :=
  prepare_denoExecutable_abs_check_unreachable fsNone cfgC6 cfgNoBundle

/-- Claim C4: a raw configuration with `skip_install = true` and a non-empty
`local_deno_bin` always fails resolution with the contradictory-options
violation among the returned errors, and `Prepare` returns the error value
(so no provisioning run is started). -/
theorem prepare_rejects_skipInstall_with_localBin (fs : Fs) (c : DenoConfig)
    (hbin : c.localDenoBin ≠ "") (hskip : c.skipInstall = true) :
    PrepareErr.localBinWithSkipInstall ∈ (prepare fs c).2 ∧
    ∃ errs, prepareResult fs c = .error errs ∧
      PrepareErr.localBinWithSkipInstall ∈ errs := by
  have hmem : PrepareErr.localBinWithSkipInstall ∈ (prepare fs c).2 := by
    show PrepareErr.localBinWithSkipInstall ∈
      prepareErrs fs c.localDenoBin c.skipInstall c.scripts
    simp only [prepareErrs, List.mem_append]
    left; left; left
    simp [hbin, hskip]
  refine ⟨hmem, (prepare fs c).2, ?_, hmem⟩
  have hne : (prepare fs c).2 ≠ [] := by
    intro h
    rw [h] at hmem
    exact List.not_mem_nil _ hmem
  simp only [prepareResult]
  split
  · simp_all
  · rfl

/-- Witness for C4 at a concrete input. -/
theorem prepare_rejects_skipInstall_with_localBin_witness :
    PrepareErr.localBinWithSkipInstall ∈ (prepare fsNone cfgC4).2 ∧
    ∃ errs, prepareResult fsNone cfgC4 = .error errs ∧
      PrepareErr.localBinWithSkipInstall ∈ errs :=
  prepare_rejects_skipInstall_with_localBin fsNone cfgC4 (by decide) rfl

/-- The accumulated error list counts exactly one `badScript` entry per
missing configured script path. -/
theorem countP_isBadScript_prepareErrs (fs : Fs) (localDenoBin : String)
    (skipInstall : Bool) (scripts : List String) :
    (prepareErrs fs localDenoBin skipInstall scripts).countP PrepareErr.isBadScript
      = scripts.countP (fun p => fs.typeOf p == FileType.missing) := by
  simp only [prepareErrs, List.countP_append, countP_badScript_filterMap]
  split_ifs <;>
    simp [PrepareErr.isBadScript, List.countP_cons, List.countP_nil, List.countP_append]

/-- Claim C6: `Prepare` checks every configured script path and accumulates
one `badScript` error per missing path without stopping at the first; when
anything was violated the whole accumulated collection is returned. -/
theorem prepare_collects_all_validation_errors (fs : Fs) (c : DenoConfig) :
    (∀ p ∈ c.scripts, fs.typeOf p = FileType.missing →
        PrepareErr.badScript p ∈ (prepare fs c).2) ∧
    (prepare fs c).2.countP PrepareErr.isBadScript
      = c.scripts.countP (fun p => fs.typeOf p == FileType.missing) ∧
    ((prepare fs c).2 ≠ [] → prepareResult fs c = .error (prepare fs c).2) := by
  refine ⟨?_, countP_isBadScript_prepareErrs fs c.localDenoBin c.skipInstall c.scripts, ?_⟩
  · intro p hp hmiss
    show PrepareErr.badScript p ∈ prepareErrs fs c.localDenoBin c.skipInstall c.scripts
    simp only [prepareErrs, List.mem_append]
    right
    exact List.mem_filterMap.mpr ⟨p, hp, by simp [hmiss]⟩
  · intro hne
    simp only [prepareResult]
    split
    · simp_all
    · rfl

/-- Witness for C6 at a concrete input: both missing paths are reported
together. -/
theorem prepare_collects_all_validation_errors_witness :
    (∀ p ∈ cfgC6.scripts, fsReg.typeOf p = FileType.missing →
        PrepareErr.badScript p ∈ (prepare fsReg cfgC6).2) ∧
    (prepare fsReg cfgC6).2.countP PrepareErr.isBadScript
      = cfgC6.scripts.countP (fun p => fsReg.typeOf p == FileType.missing) ∧
    ((prepare fsReg cfgC6).2 ≠ [] →
      prepareResult fsReg cfgC6 = .error (prepare fsReg cfgC6).2) :=
  prepare_collects_all_validation_errors fsReg cfgC6

/-! ### Upload and execution: shared lemmas -/

/-- With every script a regular file and every destination accepted by the
communicator, the upload loop uploads each script's bytes to
`ToSlash(Join(remoteFolder, Base src))`, in input order, and returns those
destinations as the manifest. -/
theorem uploadScripts_all_ok (fs : Fs) (comm : Comm) (remoteFolder : String)
    (l : List String)
    (hreg : ∀ s ∈ l, fs.typeOf s = FileType.regular)
    (hup : ∀ s ∈ l,
      comm.uploadOk (filepathToSlash (filepathJoin remoteFolder (filepathBase s))) = true) :
    uploadScripts fs comm remoteFolder l =
      (l.map (fun s =>
          CommEvent.upload (filepathToSlash (filepathJoin remoteFolder (filepathBase s)))
            (UploadSource.fileBytes (fs.content s))),
       Except.ok (l.map (fun s => filepathToSlash (filepathJoin remoteFolder (filepathBase s))))) := by
  induction l with
  | nil => rfl
  | cons a t ih =>
    have ha := hreg a (by simp)
    have hua := hup a (by simp)
    have ihe := ih (fun s hs => hreg s (by simp [hs])) (fun s hs => hup s (by simp [hs]))
    simp [uploadScripts, uploadFile, ha, hua, ihe]

/-- A successful upload loop produces one manifest entry per input script. -/
theorem uploadScripts_ok_length (fs : Fs) (comm : Comm) (remoteFolder : String)
    (l : List String) (m : List String)
    (h : (uploadScripts fs comm remoteFolder l).2 = Except.ok m) :
    m.length = l.length := by
  induction l generalizing m with
  | nil =>
    simp only [uploadScripts] at h
    cases h
    rfl
  | cons a t ih =>
    rcases hft : fs.typeOf a with _ | _ | _ | _ <;>
      simp only [uploadScripts, hft] at h
    · rcases h1 : (uploadFile fs comm
          (filepathToSlash (filepathJoin remoteFolder (filepathBase a))) a).2 with e | u
      · rw [show uploadFile fs comm
            (filepathToSlash (filepathJoin remoteFolder (filepathBase a))) a
            = ((uploadFile fs comm
                (filepathToSlash (filepathJoin remoteFolder (filepathBase a))) a).1,
              Except.error e) from by rw [← h1]] at h
        simp at h
      · rw [show uploadFile fs comm
            (filepathToSlash (filepathJoin remoteFolder (filepathBase a))) a
            = ((uploadFile fs comm
                (filepathToSlash (filepathJoin remoteFolder (filepathBase a))) a).1,
              Except.ok u) from by rw [← h1]] at h
        rcases h2 : uploadScripts fs comm remoteFolder t with ⟨e2, r2⟩
        rw [h2] at h
        cases r2 with
        | error e => simp at h
        | ok dsts =>
          simp only at h
          cases h
          have := ih dsts (by rw [h2])
          simp [this]
    all_goals exact Except.noConfusion h

/-- Every event the upload loop emits is a file upload (it issues no remote
commands). -/
theorem uploadScripts_events_are_uploads (fs : Fs) (comm : Comm)
    (remoteFolder : String) (l : List String) :
    ∀ e ∈ (uploadScripts fs comm remoteFolder l).1,
      ∃ d sc, e = CommEvent.upload d sc := by
  induction l with
  | nil => intro e he; simp [uploadScripts] at he
  | cons a t ih =>
    intro e he
    rcases hft : fs.typeOf a with _ | _ | _ | _ <;>
      simp only [uploadScripts, hft] at he
    · rcases h1 : uploadFile fs comm
          (filepathToSlash (filepathJoin remoteFolder (filepathBase a))) a with ⟨e1, r1⟩
      have he1 : ∀ x ∈ e1, ∃ d sc, x = CommEvent.upload d sc := by
        intro x hx
        simp only [uploadFile] at h1
        split at h1
        · cases h1; simp at hx
        · split at h1 <;> (cases h1; simp at hx; exact ⟨_, _, hx⟩)
      rw [h1] at he
      cases r1 with
      | error err =>
        simp only at he
        exact he1 e he
      | ok u =>
        rcases h2 : uploadScripts fs comm remoteFolder t with ⟨e2, r2⟩
        rw [h2] at he
        have he2 : ∀ x ∈ e2, ∃ d sc, x = CommEvent.upload d sc := by
          intro x hx; exact ih x (by rw [h2]; exact hx)
        cases r2 <;> simp only at he <;>
          (rcases List.mem_append.mp he with hx | hx; exacts [he1 e hx, he2 e hx])
    · simp at he
    · simp at he
    · simp at he

/-- When install, directory creation and upload all succeed and
`skipProvision` is false, `Provision` appends the execution loop's trace and
returns its result. -/
theorem provision_run_phase (fs : Fs) (comm : Comm) (c : DenoConfig) (m : List String)
    (hin : (installPhase fs comm c).2 = Except.ok ())
    (hdir : (createDir comm c.remoteFolder).2 = Except.ok ())
    (hup : (uploadScripts fs comm c.remoteFolder c.scripts).2 = Except.ok m)
    (hsp : c.skipProvision = false) :
    provision fs comm c =
      ((installPhase fs comm c).1 ++ ((createDir comm c.remoteFolder).1 ++
        ((uploadScripts fs comm c.remoteFolder c.scripts).1 ++
          (runScripts comm c.denoExecutable m).1)),
       (runScripts comm c.denoExecutable m).2) := by
  obtain ⟨ei, hI⟩ : ∃ x, installPhase fs comm c = (x, Except.ok ()) :=
    ⟨(installPhase fs comm c).1, by rw [← hin]⟩
  obtain ⟨ed, hD⟩ : ∃ x, createDir comm c.remoteFolder = (x, Except.ok ()) :=
    ⟨(createDir comm c.remoteFolder).1, by rw [← hdir]⟩
  obtain ⟨eu, hU⟩ : ∃ x, uploadScripts fs comm c.remoteFolder c.scripts
      = (x, Except.ok m) :=
    ⟨(uploadScripts fs comm c.remoteFolder c.scripts).1, by rw [← hup]⟩
  simp only [provision, hI, hD, hU, hsp, List.append_assoc]
  simp

/-- When install, directory creation and upload all succeed and
`skipProvision` is true, `Provision` stops after the upload loop and
succeeds. -/
theorem provision_skip_phase (fs : Fs) (comm : Comm) (c : DenoConfig) (m : List String)
    (hin : (installPhase fs comm c).2 = Except.ok ())
    (hdir : (createDir comm c.remoteFolder).2 = Except.ok ())
    (hup : (uploadScripts fs comm c.remoteFolder c.scripts).2 = Except.ok m)
    (hsp : c.skipProvision = true) :
    provision fs comm c =
      ((installPhase fs comm c).1 ++ ((createDir comm c.remoteFolder).1 ++
        (uploadScripts fs comm c.remoteFolder c.scripts).1),
       Except.ok ()) := by
  obtain ⟨ei, hI⟩ : ∃ x, installPhase fs comm c = (x, Except.ok ()) :=
    ⟨(installPhase fs comm c).1, by rw [← hin]⟩
  obtain ⟨ed, hD⟩ : ∃ x, createDir comm c.remoteFolder = (x, Except.ok ()) :=
    ⟨(createDir comm c.remoteFolder).1, by rw [← hdir]⟩
  obtain ⟨eu, hU⟩ : ∃ x, uploadScripts fs comm c.remoteFolder c.scripts
      = (x, Except.ok m) :=
    ⟨(uploadScripts fs comm c.remoteFolder c.scripts).1, by rw [← hup]⟩
  simp only [provision, hI, hD, hU, hsp, List.append_assoc]
  simp

/-! ### Claims C5 and C10: destination computation -/

/-- Claim C5: every uploaded script goes to the configured remote folder
joined with the artifact's base file name (forward slashes), carrying the
file's exact bytes; in `src/main.go` bundling is disabled (a TODO), so the
artifact is the script itself. -/
theorem upload_destination_is_folder_join_base (fs : Fs) (comm : Comm)
    (remoteFolder : String) (l : List String)
    (hreg : ∀ s ∈ l, fs.typeOf s = FileType.regular)
    (hup : ∀ s ∈ l,
      comm.uploadOk (filepathToSlash (filepathJoin remoteFolder (filepathBase s))) = true) :
    uploadScripts fs comm remoteFolder l =
      (l.map (fun s =>
          CommEvent.upload (filepathToSlash (filepathJoin remoteFolder (filepathBase s)))
            (UploadSource.fileBytes (fs.content s))),
       Except.ok (l.map (fun s => filepathToSlash (filepathJoin remoteFolder (filepathBase s))))) :=
  uploadScripts_all_ok fs comm remoteFolder l hreg hup

/-- Witness for C5: `/a/b/script.ts` is uploaded to `/opt/work/script.ts`
with its exact bytes. -/
theorem upload_destination_is_folder_join_base_witness :
    uploadScripts fsReg commOk "/opt/work" ["/a/b/script.ts"] =
      ([CommEvent.upload "/opt/work/script.ts" (UploadSource.fileBytes [10, 20])],
       Except.ok ["/opt/work/script.ts"]) :=
  (upload_destination_is_folder_join_base fsReg commOk "/opt/work" ["/a/b/script.ts"]
    (by decide) (by decide)).trans (by decide)

/-- Claim C10: the destination depends only on the remote folder and the base
name, so two scripts with equal base names collide: both uploads target the
same remote path (the later overwriting the earlier), the manifest lists that
path twice, and execution runs the same remote file twice. -/
theorem same_basename_collides (fs : Fs) (comm : Comm) (remoteFolder exe s1 s2 : String)
    (hbase : filepathBase s1 = filepathBase s2)
    (hreg1 : fs.typeOf s1 = FileType.regular) (hreg2 : fs.typeOf s2 = FileType.regular)
    (hup : comm.uploadOk (filepathToSlash (filepathJoin remoteFolder (filepathBase s1))) = true)
    (hrun : comm.runResult
        (runDenoCommand exe (filepathToSlash (filepathJoin remoteFolder (filepathBase s1))))
      = some 0) :
    filepathToSlash (filepathJoin remoteFolder (filepathBase s1))
        = filepathToSlash (filepathJoin remoteFolder (filepathBase s2)) ∧
    uploadScripts fs comm remoteFolder [s1, s2] =
      ([CommEvent.upload (filepathToSlash (filepathJoin remoteFolder (filepathBase s1)))
          (UploadSource.fileBytes (fs.content s1)),
        CommEvent.upload (filepathToSlash (filepathJoin remoteFolder (filepathBase s1)))
          (UploadSource.fileBytes (fs.content s2))],
       Except.ok [filepathToSlash (filepathJoin remoteFolder (filepathBase s1)),
         filepathToSlash (filepathJoin remoteFolder (filepathBase s1))]) ∧
    (runScripts comm exe [filepathToSlash (filepathJoin remoteFolder (filepathBase s1)),
        filepathToSlash (filepathJoin remoteFolder (filepathBase s1))]).1 =
      [CommEvent.runCmd (runDenoCommand exe
          (filepathToSlash (filepathJoin remoteFolder (filepathBase s1)))),
       CommEvent.runCmd (runDenoCommand exe
          (filepathToSlash (filepathJoin remoteFolder (filepathBase s1))))] := by
  refine ⟨by rw [hbase], ?_, ?_⟩
  · have h := uploadScripts_all_ok fs comm remoteFolder [s1, s2]
      (by intro s hs
          rcases List.mem_pair.mp hs with rfl | rfl
          · exact hreg1
          · exact hreg2)
      (by intro s hs
          rcases List.mem_pair.mp hs with rfl | rfl
          · exact hup
          · rw [← hbase]; exact hup)
    rw [h]
    simp [hbase]
  · simp [runScripts, runDeno, execRemoteCommand, hrun]

/-- Witness for C10: `setup.ts` and `/x/script.ts`... two scripts whose base
names agree (`/a/b/script.ts` and `/x/script.ts`) collide on
`/opt/work/script.ts`. -/
theorem same_basename_collides_witness :
    filepathToSlash (filepathJoin "/opt/work" (filepathBase "/a/b/script.ts"))
        = filepathToSlash (filepathJoin "/opt/work" (filepathBase "/x/script.ts")) ∧
    uploadScripts fsReg commOk "/opt/work" ["/a/b/script.ts", "/x/script.ts"] =
      ([CommEvent.upload (filepathToSlash (filepathJoin "/opt/work" (filepathBase "/a/b/script.ts")))
          (UploadSource.fileBytes (fsReg.content "/a/b/script.ts")),
        CommEvent.upload (filepathToSlash (filepathJoin "/opt/work" (filepathBase "/a/b/script.ts")))
          (UploadSource.fileBytes (fsReg.content "/x/script.ts"))],
       Except.ok [filepathToSlash (filepathJoin "/opt/work" (filepathBase "/a/b/script.ts")),
         filepathToSlash (filepathJoin "/opt/work" (filepathBase "/a/b/script.ts"))]) ∧
    (runScripts commOk "/root/.local/bin/deno"
        [filepathToSlash (filepathJoin "/opt/work" (filepathBase "/a/b/script.ts")),
         filepathToSlash (filepathJoin "/opt/work" (filepathBase "/a/b/script.ts"))]).1 =
      [CommEvent.runCmd (runDenoCommand "/root/.local/bin/deno"
          (filepathToSlash (filepathJoin "/opt/work" (filepathBase "/a/b/script.ts")))),
       CommEvent.runCmd (runDenoCommand "/root/.local/bin/deno"
          (filepathToSlash (filepathJoin "/opt/work" (filepathBase "/a/b/script.ts"))))] :=
  same_basename_collides fsReg commOk "/opt/work" "/root/.local/bin/deno"
    "/a/b/script.ts" "/x/script.ts" (by decide) (by decide) (by decide) (by decide) (by decide)

/-! ### Claim C7: local-binary installation -/

/-- Claim C7: under the local-binary strategy, installation performs exactly
three remote steps in order — create the parent directory of the remote
runtime path, upload the binary to exactly that path, `chmod +x` it — and a
failing step aborts with an error before any later step is issued. -/
theorem localBin_install_three_ordered_steps (fs : Fs) (comm : Comm) (exe bin : String) :
    (comm.runResult (mkdirCommand (filepathDir exe)) = some 0 →
      fs.typeOf bin ≠ FileType.missing →
      comm.uploadOk exe = true →
      comm.runResult (chmodCommand exe) = some 0 →
      localBinInstallDeno fs comm exe bin =
        ([CommEvent.runCmd (mkdirCommand (filepathDir exe)),
          CommEvent.upload exe (UploadSource.fileBytes (fs.content bin)),
          CommEvent.runCmd (chmodCommand exe)], Except.ok ())) ∧
    ((createDir comm (filepathDir exe)).2 ≠ Except.ok () →
      (localBinInstallDeno fs comm exe bin).1 =
          [CommEvent.runCmd (mkdirCommand (filepathDir exe))] ∧
        ∃ err, (localBinInstallDeno fs comm exe bin).2 = Except.error err) ∧
    (comm.runResult (mkdirCommand (filepathDir exe)) = some 0 →
      fs.typeOf bin ≠ FileType.missing →
      comm.uploadOk exe = false →
      (localBinInstallDeno fs comm exe bin).1 =
          [CommEvent.runCmd (mkdirCommand (filepathDir exe)),
           CommEvent.upload exe (UploadSource.fileBytes (fs.content bin))] ∧
        ∃ err, (localBinInstallDeno fs comm exe bin).2 = Except.error err) ∧
    (comm.runResult (mkdirCommand (filepathDir exe)) = some 0 →
      fs.typeOf bin ≠ FileType.missing →
      comm.uploadOk exe = true →
      comm.runResult (chmodCommand exe) ≠ some 0 →
      (localBinInstallDeno fs comm exe bin).1 =
          [CommEvent.runCmd (mkdirCommand (filepathDir exe)),
           CommEvent.upload exe (UploadSource.fileBytes (fs.content bin)),
           CommEvent.runCmd (chmodCommand exe)] ∧
        ∃ err, (localBinInstallDeno fs comm exe bin).2 = Except.error err) := by
  refine ⟨?_, ?_, ?_, ?_⟩
  · intro h1 h2 h3 h4
    simp [localBinInstallDeno, createDir, execRemoteCommand, uploadFile, h1, h2, h3, h4]
  · intro hfail
    rcases hmk : comm.runResult (mkdirCommand (filepathDir exe)) with _ | code
    · simp [localBinInstallDeno, createDir, execRemoteCommand, hmk]
    · by_cases hc : code = 0
      · exact absurd (by simp [createDir, execRemoteCommand, hmk, hc]) hfail
      · simp [localBinInstallDeno, createDir, execRemoteCommand, hmk, hc]
  · intro h1 h2 h3
    simp [localBinInstallDeno, createDir, execRemoteCommand, uploadFile, h1, h2, h3]
  · intro h1 h2 h3 h4
    rcases hch : comm.runResult (chmodCommand exe) with _ | code
    · simp [localBinInstallDeno, createDir, execRemoteCommand, uploadFile, h1, h2, h3, hch]
    · by_cases hc : code = 0
      · exact absurd (by rw [hch, hc]) h4
      · simp [localBinInstallDeno, createDir, execRemoteCommand, uploadFile,
          h1, h2, h3, hch, hc]

/-- Witness for C7 at concrete inputs: the all-success shape, and the
chmod-failure shape where all three steps were issued before the abort. -/
theorem localBin_install_three_ordered_steps_witness :
    localBinInstallDeno fsReg commOk "/root/.local/bin/deno" "/opt/deno" =
      ([CommEvent.runCmd (mkdirCommand (filepathDir "/root/.local/bin/deno")),
        CommEvent.upload "/root/.local/bin/deno"
          (UploadSource.fileBytes (fsReg.content "/opt/deno")),
        CommEvent.runCmd (chmodCommand "/root/.local/bin/deno")], Except.ok ()) ∧
    ((localBinInstallDeno fsReg commChmodFails "/root/.local/bin/deno" "/opt/deno").1 =
        [CommEvent.runCmd (mkdirCommand (filepathDir "/root/.local/bin/deno")),
         CommEvent.upload "/root/.local/bin/deno"
           (UploadSource.fileBytes (fsReg.content "/opt/deno")),
         CommEvent.runCmd (chmodCommand "/root/.local/bin/deno")] ∧
      ∃ err, (localBinInstallDeno fsReg commChmodFails "/root/.local/bin/deno" "/opt/deno").2
        = Except.error err) :=
  ⟨(localBin_install_three_ordered_steps fsReg commOk "/root/.local/bin/deno" "/opt/deno").1
      (by decide) (by decide) (by decide) (by decide),
   (localBin_install_three_ordered_steps fsReg commChmodFails
      "/root/.local/bin/deno" "/opt/deno").2.2.2
      (by decide) (by decide) (by decide) (by decide)⟩

/-! ### Claim C1: ordered fail-fast execution -/

/-- A successful execution loop issued exactly the `deno run -A` command of
each manifest entry, in manifest order. -/
theorem except_unit_error_of_ne_ok {e : Type} (x : Except e Unit)
    (h : x ≠ Except.ok ()) : ∃ err, x = Except.error err := by
  cases x with
  | error err => exact ⟨err, rfl⟩
  | ok u => cases u; exact absurd rfl h

/-- A successful execution loop issued the `deno run -A` command of
each manifest entry, in manifest order. -/
theorem runScripts_ok_events (comm : Comm) (exe : String) (m : List String)
    (h : (runScripts comm exe m).2 = Except.ok ()) :
    (runScripts comm exe m).1 = m.map (fun s => CommEvent.runCmd (runDenoCommand exe s)) := by
  induction m with
  | nil => rfl
  | cons a t ih =>
    rcases hk : comm.runResult (runDenoCommand exe a) with _ | code
    · simp [runScripts, runDeno, execRemoteCommand, hk] at h
    · by_cases hc : code = 0
      · simp only [runScripts, runDeno, execRemoteCommand, hk, hc] at h ⊢
        simp at h ⊢
        exact ih h
      · simp [runScripts, runDeno, execRemoteCommand, hk, hc] at h

/-- Fail-fast: if every script before `sf` runs fine and `sf`'s run command
fails, the loop issues the commands of the prefix and of `sf` only, and
returns an error. -/
theorem runScripts_fail_fast (comm : Comm) (exe : String) (pre : List String)
    (sf : String) (post : List String)
    (hpre : ∀ s ∈ pre, denoRunOk comm exe s) (hf : ¬ denoRunOk comm exe sf) :
    (runScripts comm exe (pre ++ sf :: post)).1 =
      (pre ++ [sf]).map (fun s => CommEvent.runCmd (runDenoCommand exe s)) ∧
    ∃ e, (runScripts comm exe (pre ++ sf :: post)).2 = Except.error e := by
  induction pre with
  | nil =>
    rcases hk : comm.runResult (runDenoCommand exe sf) with _ | code
    · refine ⟨by simp [runScripts, runDeno, execRemoteCommand, hk],
        except_unit_error_of_ne_ok _ ?_⟩
      simp [runScripts, runDeno, execRemoteCommand, hk]
    · by_cases hc : code = 0
      · exact absurd (by simp [denoRunOk, runDeno, execRemoteCommand, hk, hc]) hf
      · refine ⟨by simp [runScripts, runDeno, execRemoteCommand, hk, hc],
          except_unit_error_of_ne_ok _ ?_⟩
        simp [runScripts, runDeno, execRemoteCommand, hk, hc]
  | cons a t ih =>
    have ha : denoRunOk comm exe a := hpre a (by simp)
    have iht := ih (fun s hs => hpre s (by simp [hs]))
    rcases hk : comm.runResult (runDenoCommand exe a) with _ | code
    · exact absurd ha (by simp [denoRunOk, runDeno, execRemoteCommand, hk])
    · by_cases hc : code = 0
      · constructor
        · simp only [List.cons_append, runScripts, runDeno, execRemoteCommand, hk, hc]
          simp [iht.1]
        · obtain ⟨e, he⟩ := iht.2
          refine ⟨e, ?_⟩
          simp only [List.cons_append, runScripts, runDeno, execRemoteCommand, hk, hc]
          simp [he]
      · exact absurd ha (by simp [denoRunOk, runDeno, execRemoteCommand, hk, hc])

/-- Claim C1: when `skipProvision` is false the executor issues exactly one
remote `deno run -A` command per manifest entry in manifest order; a failing
entry aborts the run with an error and no later entry's command is ever
issued; and `Provision` runs this loop on exactly the manifest the upload
phase produced. -/
theorem executor_one_run_per_entry_fail_fast (comm : Comm) (exe : String)
    (m : List String) :
    ((runScripts comm exe m).2 = Except.ok () →
      (runScripts comm exe m).1
        = m.map (fun s => CommEvent.runCmd (runDenoCommand exe s))) ∧
    (∀ pre sf post, m = pre ++ sf :: post →
      (∀ s ∈ pre, denoRunOk comm exe s) → ¬ denoRunOk comm exe sf →
      (runScripts comm exe m).1
          = (pre ++ [sf]).map (fun s => CommEvent.runCmd (runDenoCommand exe s)) ∧
        ∃ e, (runScripts comm exe m).2 = Except.error e) ∧
    (∀ fs c, c.skipProvision = false → c.denoExecutable = exe →
      (installPhase fs comm c).2 = Except.ok () →
      (createDir comm c.remoteFolder).2 = Except.ok () →
      (uploadScripts fs comm c.remoteFolder c.scripts).2 = Except.ok m →
      (provision fs comm c).1 =
          (installPhase fs comm c).1 ++ ((createDir comm c.remoteFolder).1 ++
            ((uploadScripts fs comm c.remoteFolder c.scripts).1
              ++ (runScripts comm exe m).1)) ∧
        (provision fs comm c).2 = (runScripts comm exe m).2) := by
  refine ⟨runScripts_ok_events comm exe m, ?_, ?_⟩
  · intro pre sf post hm hpre hf
    subst hm
    exact runScripts_fail_fast comm exe pre sf post hpre hf
  · intro fs c hsp hexe hin hdir hup
    subst hexe
    have h := provision_run_phase fs comm c m hin hdir hup hsp
    rw [h]
    exact ⟨rfl, rfl⟩

/-- Witness for C1: with manifest `[a, b, c]` and a communicator failing on
`b`'s run command, exactly `a`'s and `b`'s commands are issued and the loop
errors; `c` is never run. -/
theorem executor_one_run_per_entry_fail_fast_witness :
    (runScripts commFailB "/root/.local/bin/deno"
        ["/tmp/packer-deno/a.ts", "/tmp/packer-deno/b.ts", "/tmp/packer-deno/c.ts"]).1
      = (["/tmp/packer-deno/a.ts"] ++ ["/tmp/packer-deno/b.ts"]).map
          (fun s => CommEvent.runCmd (runDenoCommand "/root/.local/bin/deno" s)) ∧
    ∃ e, (runScripts commFailB "/root/.local/bin/deno"
        ["/tmp/packer-deno/a.ts", "/tmp/packer-deno/b.ts", "/tmp/packer-deno/c.ts"]).2
      = Except.error e :=
  (executor_one_run_per_entry_fail_fast commFailB "/root/.local/bin/deno"
      ["/tmp/packer-deno/a.ts", "/tmp/packer-deno/b.ts", "/tmp/packer-deno/c.ts"]).2.1
    ["/tmp/packer-deno/a.ts"] "/tmp/packer-deno/b.ts" ["/tmp/packer-deno/c.ts"]
    rfl (by decide) (by decide)

/-! ### Claim C2: non-regular upload inputs -/

/-- Counterexample to C2 as stated: `pipe.ts` exists and is neither a regular
file nor a directory, yet the upload loop does not skip it and continue — it
aborts the whole run with the `not a regular file` error, uploading nothing
and never reaching the following regular script. -/
theorem upload_irregular_not_skipped_counterexample :
    fsPipe.typeOf "pipe.ts" = FileType.other ∧
    uploadScripts fsPipe commOk "/tmp/packer-deno" ["pipe.ts", "b.ts"] =
      ([], Except.error (RunErr.notRegularFile "pipe.ts")) := by
  constructor
  · rfl
  · rfl

/-- Claim C2 (amended): a configured path that is a directory aborts the
upload phase with the directory error; a configured path of any other
non-regular type also aborts the run, with the `not a regular file` error —
it is not skipped, no later script is processed, and no manifest entry is
added. -/
theorem upload_nonregular_aborts (fs : Fs) (comm : Comm)
    (remoteFolder src : String) (rest : List String) :
    (fs.typeOf src = FileType.directory →
      uploadScripts fs comm remoteFolder (src :: rest) =
        ([], Except.error (RunErr.isDirectory src))) ∧
    (fs.typeOf src = FileType.other →
      uploadScripts fs comm remoteFolder (src :: rest) =
        ([], Except.error (RunErr.notRegularFile src))) := by
  constructor <;> intro h <;> simp [uploadScripts, h]

/-- Witness for the amended C2 at concrete inputs: the directory aborts with
the directory error, the pipe aborts with the not-regular-file error. -/
theorem upload_nonregular_aborts_witness :
    uploadScripts fsPipe commOk "/tmp/packer-deno" ["dir.ts", "b.ts"] =
      ([], Except.error (RunErr.isDirectory "dir.ts")) ∧
    uploadScripts fsPipe commOk "/tmp/packer-deno" ["pipe.ts", "b.ts"] =
      ([], Except.error (RunErr.notRegularFile "pipe.ts")) :=
  ⟨(upload_nonregular_aborts fsPipe commOk "/tmp/packer-deno" "dir.ts" ["b.ts"]).1
      (by decide),
   (upload_nonregular_aborts fsPipe commOk "/tmp/packer-deno" "pipe.ts" ["b.ts"]).2
      (by decide)⟩

/-! ### Claim C3: the NoBundle flag -/

/-- Counterexample to C3 as stated: with `NoBundle = true` the bundle phase
still invokes the external bundler (one `deno bundle` call) and maps the
script to a fresh temp artifact, not to itself. -/
theorem bundling_disabled_still_bundles_counterexample :
    cfgNoBundle.noBundle = true ∧
    (bundlePhase sysBundle fsReg cfgNoBundle.scripts 0).1 =
      [⟨"setup.ts", "/tmp/bundling/setup.ts.bundle.js"⟩] ∧
    (bundlePhase sysBundle fsReg cfgNoBundle.scripts 0).2 =
      Except.ok ["/tmp/bundling/setup.ts.bundle.js"] ∧
    (bundlePhase sysBundle fsReg cfgNoBundle.scripts 0).2 ≠
      Except.ok cfgNoBundle.scripts := by
  refine ⟨rfl, by decide, by decide, by decide⟩

/-- Claim C3 (amended): the `part_003` revision never consults `NoBundle`:
the whole run is unchanged by the flag, and a successful bundle phase invokes
the external bundler exactly once per configured script, in order. -/
theorem bundlePhase_ignores_noBundle (sys : Sys) (fs : Fs) (comm : Comm)
    (c : DenoConfigV2) (b : Bool) :
    provisionV2 sys fs comm { c with noBundle := b } = provisionV2 sys fs comm c ∧
    (∀ n bundles, (bundlePhase sys fs c.scripts n).2 = Except.ok bundles →
      (bundlePhase sys fs c.scripts n).1.map BundleCall.src = c.scripts) := by
  refine ⟨rfl, ?_⟩
  generalize c.scripts = l
  induction l with
  | nil => intro n bundles _; rfl
  | cons a t ih =>
    intro n bundles h
    by_cases hm : fs.typeOf a = FileType.missing
    · simp [bundlePhase, hm] at h
    · rcases htd : sys.tempDir n with _ | dir
      · simp [bundlePhase, hm, BundlePath, htd] at h
      · by_cases hst : sys.bundleStartOk a
            (filepathJoin dir (filepathSplitFile a ++ ".bundle.js")) = true
        · by_cases hw : sys.bundleWaitOk a
              (filepathJoin dir (filepathSplitFile a ++ ".bundle.js")) = true
          · simp only [bundlePhase, hm, BundlePath, htd, hst, hw, if_true, if_false] at h ⊢
            rcases h2 : bundlePhase sys fs t (n + 1) with ⟨calls, r⟩
            cases r with
            | error e =>
              rw [h2] at h
              exact Except.noConfusion h
            | ok bs =>
              have hih := ih (n + 1) bs (by rw [h2])
              rw [h2] at hih
              simpa using hih
          · simp [bundlePhase, hm, BundlePath, htd, hst, hw] at h
        · simp [bundlePhase, hm, BundlePath, htd, hst] at h

/-- Witness for the amended C3 at concrete inputs. -/
theorem bundlePhase_ignores_noBundle_witness :
    provisionV2 sysBundle fsReg commOk { cfgNoBundle with noBundle := false }
        = provisionV2 sysBundle fsReg commOk cfgNoBundle ∧
    (bundlePhase sysBundle fsReg cfgNoBundle.scripts 0).1.map BundleCall.src
        = cfgNoBundle.scripts :=
  ⟨(bundlePhase_ignores_noBundle sysBundle fsReg commOk cfgNoBundle false).1,
   (bundlePhase_ignores_noBundle sysBundle fsReg commOk cfgNoBundle false).2
      0 ["/tmp/bundling/setup.ts.bundle.js"] (by decide)⟩

/-! ### Claim C8: upload-only mode -/

theorem headChar_append (a b : String) (h : a.data ≠ []) :
    headChar (a ++ b) = headChar a := by
  rw [headChar, headChar, String.data_append]
  cases hd : a.data with
  | nil => exact absurd hd h
  | cons c cs => simp

theorem headChar_mkdirCommand (d : String) : headChar (mkdirCommand d) = some 'm' := by
  have h1 : ("mkdir -p " ++ squote).data ≠ [] := by decide
  have h2 : (("mkdir -p " ++ squote) ++ d).data ≠ [] := by
    rw [String.data_append]
    intro hc
    exact h1 (List.append_eq_nil.mp hc).1
  simp only [mkdirCommand]
  rw [headChar_append _ _ h2, headChar_append _ _ h1]
  decide

theorem headChar_chmodCommand (p : String) : headChar (chmodCommand p) = some 'c' := by
  simp only [chmodCommand]
  rw [headChar_append _ _ (by decide)]
  decide

theorem headChar_runDenoCommand (s : String) :
    headChar (runDenoCommand "/root/.local/bin/deno" s) = some '/' := by
  simp only [runDenoCommand]
  rw [headChar_append _ _ (by decide)]
  decide

/-- Every event of the curl installation is one of its three fixed steps. -/
theorem curlInstallDeno_events (comm : Comm) :
    ∀ e ∈ (curlInstallDeno comm).1,
      e = CommEvent.upload installScriptRemotePath UploadSource.installCurlScriptText ∨
      e = CommEvent.runCmd "sh /tmp/install_curl.sh" ∨
      e = CommEvent.runCmd curlBootstrapCommand := by
  intro e he
  by_cases hup : comm.uploadOk installScriptRemotePath = true
  · rcases h1 : comm.runResult "sh /tmp/install_curl.sh" with _ | code
    · simp [curlInstallDeno, execRemoteCommand, hup, h1] at he
      tauto
    · by_cases hc : code = 0
      · simp [curlInstallDeno, execRemoteCommand, hup, h1, hc] at he
        tauto
      · simp [curlInstallDeno, execRemoteCommand, hup, h1, hc] at he
        tauto
  · simp [curlInstallDeno, execRemoteCommand, hup] at he
    tauto

/-- Every event of the local-binary installation is one of its three fixed
steps. -/
theorem localBinInstallDeno_events (fs : Fs) (comm : Comm) (exe bin : String) :
    ∀ e ∈ (localBinInstallDeno fs comm exe bin).1,
      e = CommEvent.runCmd (mkdirCommand (filepathDir exe)) ∨
      e = CommEvent.upload exe (UploadSource.fileBytes (fs.content bin)) ∨
      e = CommEvent.runCmd (chmodCommand exe) := by
  intro e he
  rcases hmk : comm.runResult (mkdirCommand (filepathDir exe)) with _ | code
  · simp [localBinInstallDeno, createDir, execRemoteCommand, hmk] at he
    tauto
  · by_cases hc : code = 0
    · by_cases hbin : fs.typeOf bin = FileType.missing
      · simp [localBinInstallDeno, createDir, execRemoteCommand, uploadFile,
          hmk, hc, hbin] at he
        tauto
      · by_cases hup : comm.uploadOk exe = true
        · simp [localBinInstallDeno, createDir, execRemoteCommand, uploadFile,
            hmk, hc, hbin, hup] at he
          tauto
        · simp [localBinInstallDeno, createDir, execRemoteCommand, uploadFile,
            hmk, hc, hbin, hup] at he
          tauto
    · simp [localBinInstallDeno, createDir, execRemoteCommand, hmk, hc] at he
      tauto

/-- Every event of the install phase is a file upload or a remote command
whose command line does not begin with a slash (so it is never a
`<denoExecutable> run -A` invocation of the constant runtime path). -/
theorem installPhase_events (fs : Fs) (comm : Comm) (c : DenoConfig) :
    ∀ e ∈ (installPhase fs comm c).1,
      (∃ d sc, e = CommEvent.upload d sc) ∨
      (∃ cmd, e = CommEvent.runCmd cmd ∧ headChar cmd ≠ some '/') := by
  intro e he
  by_cases hsk : c.skipInstall
  · simp [installPhase, hsk] at he
  · by_cases hbin : c.localDenoBin = ""
    · have he2 : e ∈ (curlInstallDeno comm).1 := by
        simpa [installPhase, hsk, hbin] using he
      rcases curlInstallDeno_events comm e he2 with h | h | h
      · exact Or.inl ⟨_, _, h⟩
      · exact Or.inr ⟨_, h, by decide⟩
      · exact Or.inr ⟨_, h, by decide⟩
    · have he2 : e ∈ (localBinInstallDeno fs comm c.denoExecutable c.localDenoBin).1 := by
        simpa [installPhase, hsk, hbin] using he
      rcases localBinInstallDeno_events fs comm c.denoExecutable c.localDenoBin e he2
        with h | h | h
      · exact Or.inr ⟨_, h, by rw [headChar_mkdirCommand]; decide⟩
      · exact Or.inl ⟨_, _, h⟩
      · exact Or.inr ⟨_, h, by rw [headChar_chmodCommand]; decide⟩

/-- A successful run had a successful install phase, remote-directory
creation, and upload loop. -/
theorem provision_ok_phases (fs : Fs) (comm : Comm) (c : DenoConfig)
    (hok : (provision fs comm c).2 = Except.ok ()) :
    (installPhase fs comm c).2 = Except.ok () ∧
    (createDir comm c.remoteFolder).2 = Except.ok () ∧
    ∃ m, (uploadScripts fs comm c.remoteFolder c.scripts).2 = Except.ok m := by
  rcases hri : (installPhase fs comm c).2 with e | u
  · obtain ⟨ei, hI⟩ : ∃ x, installPhase fs comm c = (x, Except.error e) :=
      ⟨_, by rw [← hri]⟩
    simp [provision, hI] at hok
  · cases u
    obtain ⟨ei, hI⟩ : ∃ x, installPhase fs comm c = (x, Except.ok ()) :=
      ⟨_, by rw [← hri]⟩
    rcases hrd : (createDir comm c.remoteFolder).2 with e | u
    · obtain ⟨ed, hD⟩ : ∃ x, createDir comm c.remoteFolder = (x, Except.error e) :=
        ⟨_, by rw [← hrd]⟩
      simp [provision, hI, hD] at hok
    · cases u
      rcases hru : (uploadScripts fs comm c.remoteFolder c.scripts).2 with e | ms
      · obtain ⟨ed, hD⟩ : ∃ x, createDir comm c.remoteFolder = (x, Except.ok ()) :=
          ⟨_, by rw [← hrd]⟩
        obtain ⟨eu, hU⟩ : ∃ x, uploadScripts fs comm c.remoteFolder c.scripts
            = (x, Except.error e) := ⟨_, by rw [← hru]⟩
        simp [provision, hI, hD, hU] at hok
      · exact ⟨rfl, rfl, ms, rfl⟩

/-- Claim C8: with `skip_provision = true` and every configured script an
existing regular file, a successful run produces a manifest with one entry
per script and issues no `deno run -A` command at all. -/
theorem skip_provision_uploads_without_running (fs : Fs) (comm : Comm) (c : DenoConfig)
    (hexe : c.denoExecutable = "/root/.local/bin/deno")
    (hsp : c.skipProvision = true)
    (hreg : ∀ s ∈ c.scripts, fs.typeOf s = FileType.regular)
    (hok : (provision fs comm c).2 = Except.ok ()) :
    ∃ m, (uploadScripts fs comm c.remoteFolder c.scripts).2 = Except.ok m ∧
      m.length = c.scripts.length ∧
      ∀ s, CommEvent.runCmd (runDenoCommand c.denoExecutable s) ∉ (provision fs comm c).1 := by
  obtain ⟨hin, hdir, m, hup⟩ := provision_ok_phases fs comm c hok
  refine ⟨m, hup, uploadScripts_ok_length fs comm c.remoteFolder c.scripts m hup, ?_⟩
  intro s hmem
  rw [provision_skip_phase fs comm c m hin hdir hup hsp] at hmem
  simp only [List.mem_append] at hmem
  rcases hmem with h | h | h
  · rcases installPhase_events fs comm c _ h with ⟨d, sc, habs⟩ | ⟨cmd, hcmd, hhead⟩
    · exact CommEvent.noConfusion habs
    · apply hhead
      rw [← CommEvent.runCmd.inj hcmd, hexe, headChar_runDenoCommand]
  · have h2 : CommEvent.runCmd (runDenoCommand c.denoExecutable s)
        = CommEvent.runCmd (mkdirCommand c.remoteFolder) := by
      simpa [createDir, execRemoteCommand] using h
    have h4 : headChar (runDenoCommand c.denoExecutable s)
        = headChar (mkdirCommand c.remoteFolder) := by rw [CommEvent.runCmd.inj h2]
    rw [hexe, headChar_runDenoCommand, headChar_mkdirCommand] at h4
    simp at h4
  · rcases uploadScripts_events_are_uploads fs comm c.remoteFolder c.scripts _ h
      with ⟨d, sc, habs⟩
    exact CommEvent.noConfusion habs

/-- Witness for C8 at concrete inputs: both scripts are uploaded (two
manifest entries) and the trace contains no run command. -/
theorem skip_provision_uploads_without_running_witness :
    ∃ m, (uploadScripts fsReg commOk cfgSkipProv.remoteFolder cfgSkipProv.scripts).2
        = Except.ok m ∧
      m.length = cfgSkipProv.scripts.length ∧
      ∀ s, CommEvent.runCmd (runDenoCommand cfgSkipProv.denoExecutable s)
        ∉ (provision fsReg commOk cfgSkipProv).1 :=
  skip_provision_uploads_without_running fsReg commOk cfgSkipProv rfl rfl
    (by decide) (by decide)

end PackerDeno
